import Mathlib

/-!
Verification of the smart matching engine and the duplicate-detection logic
of the internship store (files smart_matching_engine.py and supabase_db.py).

Numeric behaviour is modelled over the rationals; the Python float round
function with one decimal digit is modelled as exact round-half-to-even on
the scaled rational.
-/

/-! ### Rounding to one decimal (Python round(x, 1), ties to even) -/

/-- Round-half-to-even of a rational to an integer. -/
def rhe (q : ℚ) : ℤ :=
  if q - ⌊q⌋ = 1/2 then (if ⌊q⌋ % 2 = 0 then ⌊q⌋ else ⌊q⌋ + 1) else ⌊q + 1/2⌋

/-- Model of the Python expression round(q, 1). -/
def round1 (q : ℚ) : ℚ := (rhe (10 * q) : ℚ) / 10

theorem floor_le_rhe (q : ℚ) : ⌊q⌋ ≤ rhe q := by
  unfold rhe
  split_ifs with h1 h2
  · exact le_refl _
  · omega
  · exact Int.floor_mono (by linarith)

theorem rhe_le_floor_add_one (q : ℚ) : rhe q ≤ ⌊q⌋ + 1 := by
  unfold rhe
  split_ifs with h1 h2
  · omega
  · exact le_refl _
  · have : (⌊q + 1/2⌋ : ℤ) ≤ ⌊q + 1⌋ := Int.floor_mono (by linarith)
    have h2 : ⌊q + (1 : ℤ)⌋ = ⌊q⌋ + 1 := Int.floor_add_int q 1
    simpa [h2] using this

theorem rhe_mono {a b : ℚ} (h : a ≤ b) : rhe a ≤ rhe b := by
  rcases lt_or_le ⌊a⌋ ⌊b⌋ with hf | hf
  · have h1 := rhe_le_floor_add_one a
    have h2 := floor_le_rhe b
    omega
  · have hab : ⌊a⌋ ≤ ⌊b⌋ := Int.floor_mono h
    have heq : ⌊a⌋ = ⌊b⌋ := le_antisymm hab hf
    by_cases ha : a - ⌊a⌋ = 1/2 <;> by_cases hb : b - ⌊b⌋ = 1/2
    · have hcast : (⌊a⌋ : ℚ) = (⌊b⌋ : ℚ) := by exact_mod_cast heq
      have : a = b := by linarith
      simp [this]
    · -- a is a tie, b is strictly above the half point
      have hbgt : (⌊b⌋ : ℚ) + 1/2 < b := by
        have hle : (⌊b⌋ : ℚ) + 1/2 ≤ b := by
          have hc : (⌊a⌋ : ℚ) = (⌊b⌋ : ℚ) := by exact_mod_cast heq
          linarith [ha, h, hc]
        rcases lt_or_eq_of_le hle with h' | h'
        · exact h'
        · exact absurd (by linarith) hb
      have hrb : ⌊b⌋ + 1 ≤ rhe b := by
        unfold rhe
        rw [if_neg hb]
        exact Int.le_floor.mpr (by push_cast; linarith)
      have hra : rhe a ≤ ⌊a⌋ + 1 := rhe_le_floor_add_one a
      omega
    · -- b is a tie, a is strictly below the half point
      have halt : a < (⌊a⌋ : ℚ) + 1/2 := by
        have hle : a ≤ (⌊a⌋ : ℚ) + 1/2 := by
          have hc : (⌊a⌋ : ℚ) = (⌊b⌋ : ℚ) := by exact_mod_cast heq
          linarith [hb, h, hc]
        rcases lt_or_eq_of_le hle with h' | h'
        · exact h'
        · exact absurd (by linarith) ha
      have hra : rhe a ≤ ⌊a⌋ := by
        unfold rhe
        rw [if_neg ha]
        have : ⌊a + 1/2⌋ < ⌊a⌋ + 1 := Int.floor_lt.mpr (by push_cast; linarith)
        omega
      have hrb : ⌊b⌋ ≤ rhe b := floor_le_rhe b
      omega
    · unfold rhe
      rw [if_neg ha, if_neg hb]
      exact Int.floor_mono (by linarith)

theorem rhe_intCast (z : ℤ) : rhe (z : ℚ) = z := by
  unfold rhe
  have h0 : (⌊(z : ℚ)⌋ : ℤ) = z := Int.floor_intCast z
  rw [h0]
  have hne : (z : ℚ) - z ≠ 1/2 := by norm_num
  rw [if_neg hne]
  have : ((z : ℚ) + 1/2) = (1/2 : ℚ) + z := by ring
  rw [this, Int.floor_add_int]
  norm_num

theorem rhe_cast_le (q : ℚ) : (rhe q : ℚ) ≤ q + 1/2 := by
  have h1 : rhe q ≤ ⌊q + 1/2⌋ := by
    unfold rhe
    split_ifs with h1 h2
    · exact Int.le_floor.mpr (by linarith [Int.floor_le q])
    · exact Int.le_floor.mpr (by push_cast; linarith [Int.floor_le q])
    · exact le_refl _
  calc (rhe q : ℚ) ≤ (⌊q + 1/2⌋ : ℚ) := by exact_mod_cast h1
    _ ≤ q + 1/2 := Int.floor_le _

theorem le_rhe_cast (q : ℚ) : q - 1 < (rhe q : ℚ) := by
  have h1 := floor_le_rhe q
  have h2 : (⌊q⌋ : ℚ) > q - 1 := by linarith [Int.lt_floor_add_one q]
  have : (⌊q⌋ : ℚ) ≤ (rhe q : ℚ) := by exact_mod_cast h1
  linarith

theorem round1_mono {a b : ℚ} (h : a ≤ b) : round1 a ≤ round1 b := by
  unfold round1
  have := rhe_mono (show 10 * a ≤ 10 * b by linarith)
  have hc : (rhe (10 * a) : ℚ) ≤ (rhe (10 * b) : ℚ) := by exact_mod_cast this
  linarith

theorem round1_nonneg {q : ℚ} (h : 0 ≤ q) : 0 ≤ round1 q := by
  unfold round1
  have h1 : (0 : ℤ) ≤ ⌊10 * q⌋ := Int.le_floor.mpr (by push_cast; linarith)
  have h2 := floor_le_rhe (10 * q)
  have : (0 : ℚ) ≤ (rhe (10 * q) : ℚ) := by exact_mod_cast le_trans h1 h2
  linarith

theorem round1_le_add (q : ℚ) : round1 q ≤ q + 1/20 := by
  unfold round1
  have := rhe_cast_le (10 * q)
  linarith

theorem round1_tenth (z : ℤ) : round1 ((z : ℚ) / 10) = (z : ℚ) / 10 := by
  unfold round1
  have h : (10 : ℚ) * (z / 10) = (z : ℚ) := by ring
  rw [h, rhe_intCast]

/-! ### String helpers modelling Python string operations -/

/-- Python str.lower (ASCII model). -/
def lowerStr (s : String) : String := String.mk (s.toList.map Char.toLower)

/-- Python str.upper (ASCII model). -/
def upperStr (s : String) : String := String.mk (s.toList.map Char.toUpper)

/-- Python str.capitalize: first character upper-cased, the rest lower-cased. -/
def capitalizeStr (s : String) : String :=
  match s.toList with
  | [] => ""
  | c :: rest => String.mk (Char.toUpper c :: rest.map Char.toLower)

/-- Python str.strip (whitespace from both ends). -/
def trimStr (s : String) : String :=
  String.mk (((s.toList.dropWhile Char.isWhitespace).reverse.dropWhile
    Char.isWhitespace).reverse)

/-- Removal of every space character, modelling Python replace of a space by
the empty string. -/
def stripSpaces (s : String) : String :=
  String.mk (s.toList.filter (fun c => c ≠ ' '))

/-- Does the first list occur at the head of the second one. -/
def listStartsWith : List Char → List Char → Bool
  | [], _ => true
  | _ :: _, [] => false
  | a :: as, b :: bs => a = b && listStartsWith as bs

/-- Does the first list occur contiguously anywhere in the second one,
modelling the Python operator in on strings. -/
def listInfixOf (n : List Char) : List Char → Bool
  | [] => n.isEmpty
  | c :: rest => listStartsWith n (c :: rest) || listInfixOf n rest

/-- Python expression needle in hay on strings. -/
def substr (needle hay : String) : Bool := listInfixOf needle.toList hay.toList

/-- Split a character list on a separator character, modelling Python
str.split with a one-character separator: always returns at least one part. -/
def splitOnChar (sep : Char) : List Char → List (List Char)
  | [] => [[]]
  | c :: rest =>
    match splitOnChar sep rest with
    | [] => [[c]]
    | p :: ps => if c = sep then [] :: p :: ps else (c :: p) :: ps

/-- The source file contains the en dash of duration strings as the
three-character mojibake sequence; its replacement by a hyphen, modelling
the Python replace call in analyze_resume. -/
def replaceDashSeq : List Char → List Char
  | [] => []
  | [a] => [a]
  | [a, b] => [a, b]
  | a :: b :: c :: rest =>
    if a = 'â' ∧ b = '€' ∧ c = '“' then '-' :: replaceDashSeq rest
    else a :: replaceDashSeq (b :: c :: rest)

/-- Python int(s) on a decimal string: optional surrounding whitespace, an
optional sign, then at least one digit (numeric underscores are not
modelled). Returns none where Python raises ValueError. -/
def parseIntChars (s : List Char) : Option Int :=
  let t := (s.dropWhile Char.isWhitespace).reverse.dropWhile Char.isWhitespace |>.reverse
  let core : List Char × Bool :=
    match t with
    | '-' :: rest => (rest, true)
    | '+' :: rest => (rest, false)
    | _ => (t, false)
  if core.1 ≠ [] ∧ core.1.all Char.isDigit then
    let v : Int := core.1.foldl (fun acc c => acc * 10 + (c.toNat - '0'.toNat)) 0
    some (if core.2 then -v else v)
  else
    none

/-! ### The engine's keyword tables (SmartMatchingEngine.__init__) -/

/-- The tech_skills table, in Python dict insertion order. -/
def techSkills : List (String × List String) :=
  [ ("programming_languages",
      ["python", "java", "javascript", "typescript", "c++", "c#", "go", "rust",
       "php", "ruby", "swift", "kotlin", "scala", "r", "matlab", "sql", "solidity"]),
    ("web_frameworks",
      ["react", "angular", "vue", "nodejs", "express", "django", "flask",
       "spring", "laravel", "rails", "asp.net", "fastapi", "jakarta ee", "mvc"]),
    ("databases",
      ["postgresql", "mysql", "mongodb", "redis", "cassandra", "dynamodb",
       "sqlite", "oracle", "mariadb", "elasticsearch", "entity framework"]),
    ("cloud_platforms",
      ["aws", "azure", "gcp", "google cloud", "heroku", "digitalocean",
       "kubernetes", "docker", "terraform"]),
    ("data_science",
      ["pandas", "numpy", "scikit-learn", "tensorflow", "pytorch", "keras",
       "matplotlib", "seaborn", "jupyter", "apache spark", "opencv", "power bi",
       "cnn", "deep learning", "machine learning", "computer vision", "image processing"]),
    ("devops",
      ["git", "jenkins", "travis", "circleci", "gitlab", "github actions",
       "ansible", "puppet", "chef", "github"]),
    ("blockchain",
      ["ethereum", "solidity", "web3", "blockchain", "smart contracts"]),
    ("ai_ml",
      ["llm", "prompt engineering", "generative ai", "artificial intelligence",
       "data mining", "statistical modeling", "shap"]) ]

/-! ### Data model of resume analysis -/

/-- The three experience levels appearing in the engine. -/
inductive ExpLevel where
  | entry_level
  | mid_level
  | senior_level
deriving DecidableEq, Repr

/-- The education levels appearing in the engine (none is the initial
analysis value for a resume without education entries). -/
inductive EduLevel where
  | noDegreeInfo   -- the string none in the source
  | high_school
  | bachelor
  | master
  | phd
deriving DecidableEq, Repr

/-- One education entry; only the degree field is read by analyze_resume
(absent key modelled as none, read with default empty string). -/
structure EduEntry where
  degree : Option String
deriving Repr

/-- One professional-experience entry; only the duration field is read. -/
structure ExpEntry where
  duration : Option String
deriving Repr

/-- The resume_data dictionary. A none field models a key that is absent or
has a null value (both behave identically through dict.get plus Python
truthiness). Projects and certifications are lists of opaque records; only
their lengths are read by the engine. -/
structure ResumeData where
  skills : Option (List String) := Option.none
  languages : Option (List String) := Option.none
  education : Option (List EduEntry) := Option.none
  professional_experience : Option (List ExpEntry) := Option.none
  projects : Option (List Unit) := Option.none
  certifications : Option (List Unit) := Option.none

/-- The analysis dictionary returned by analyze_resume. -/
structure ResumeAnalysis where
  skills : Finset String
  experience_level : ExpLevel
  years_experience : ℚ
  education_level : EduLevel
  has_degree : Bool
  relevant_projects : ℕ
  programming_languages : Finset String
  technical_categories : Finset String
  certifications_count : ℕ
  languages : Finset String
deriving DecidableEq

/-! ### analyze_resume -/

/-- The skill-match test of the inner loop of analyze_resume:
tech in skill_lower, or the space-stripped variant, or any of the variants
tech, tech.upper(), tech.capitalize() as a substring of skill_lower. -/
def skillMatchesTech (skillLower : String) (tech : String) : Bool :=
  substr tech skillLower ||
  substr (stripSpaces tech) (stripSpaces skillLower) ||
  substr tech skillLower ||
  substr (upperStr tech) skillLower ||
  substr (capitalizeStr tech) skillLower

/-- Accumulator of the skill-categorisation loop. -/
structure SkillAccum where
  skills : Finset String
  programming_languages : Finset String
  technical_categories : Finset String
  devops_matches : List String

/-- Processing of one skill string: lower-case and strip, record it, then for
each category add the category (or collect the DevOps tech) for the first
matching tech keyword; the source's break leaves the inner keyword loop
only, so every category is still examined for each skill. -/
def processSkill (acc : SkillAccum) (skill : String) : SkillAccum :=
  let sl := trimStr (lowerStr skill)
  let acc := { acc with skills := insert sl acc.skills }
  techSkills.foldl (fun a ct =>
    match ct.2.find? (fun t => skillMatchesTech sl t) with
    | some t =>
      let a :=
        if ct.1 = "devops" then { a with devops_matches := a.devops_matches ++ [t] }
        else { a with technical_categories := insert ct.1 a.technical_categories }
      if ct.1 = "programming_languages" then
        { a with programming_languages := insert t a.programming_languages }
      else a
    | Option.none => a) acc

/-- The whole skill loop followed by the DevOps promotion rule: the devops
category is added only when a non-git tool was matched or at least three
DevOps matches were collected. -/
def processSkills (skills : List String) : SkillAccum :=
  let st := skills.foldl processSkill ⟨∅, ∅, ∅, []⟩
  let nonGit := st.devops_matches.filter (fun t => t ∉ ["git", "github", "gitlab"])
  if 1 ≤ nonGit.length ∨ 3 ≤ st.devops_matches.length then
    { st with technical_categories := insert "devops" st.technical_categories }
  else st

/-- One step of the highest-degree scan over education entries (the body of
the education loop of analyze_resume, with the source's branch order). -/
def classifyDegree (highest : EduLevel) (degreeRaw : String) : EduLevel :=
  let d := lowerStr degreeRaw
  if substr "engineering" d ∧ (substr "computer" d ∨ substr "software" d) then
    EduLevel.bachelor
  else if substr "master" d ∨ substr "ms" d ∨ substr "ma" d then
    EduLevel.master
  else if substr "phd" d ∨ substr "doctorate" d then
    EduLevel.phd
  else if substr "bachelor" d ∨ substr "bs" d ∨ substr "ba" d ∨ substr "license" d then
    EduLevel.bachelor
  else if substr "preparatory" d ∨ substr "baccalaureate" d then
    (if highest = EduLevel.noDegreeInfo then EduLevel.high_school else highest)
  else highest

/-- The education scan: highest_degree starts at bachelor and is rewritten
by each entry in order. -/
def analyzeEducation (education : List EduEntry) : EduLevel :=
  education.foldl (fun h e => classifyDegree h (e.degree.getD "")) EduLevel.bachelor

/-- Months contributed by one duration string (the body of the experience
loop: en-dash normalisation, split on the hyphen, year/month parsing with
the exception fallback of 3 months, and the floor of 1 month). A split that
does not yield exactly two parts contributes nothing. -/
def durationMonths (duration : String) : ℕ :=
  let dl := duration.toList
  if listInfixOf "â€“".toList dl ∨ listInfixOf ['-'] dl then
    match splitOnChar '-' (replaceDashSeq dl) with
    | [p1, p2] =>
      let s := (p1.dropWhile Char.isWhitespace).reverse.dropWhile Char.isWhitespace |>.reverse
      let e := (p2.dropWhile Char.isWhitespace).reverse.dropWhile Char.isWhitespace |>.reverse
      if s.contains '/' ∧ e.contains '/' then
        match splitOnChar '/' s, splitOnChar '/' e with
        | [sy, sm], [ey, em] =>
          match parseIntChars sy, parseIntChars sm, parseIntChars ey, parseIntChars em with
          | some a, some b, some c, some d => (max 1 ((c - a) * 12 + (d - b))).toNat
          | _, _, _, _ => 3
        | _, _ => 3
      else 3
    | _ => 0
  else 3

/-- analyze_resume. The source's early return for a falsy resume_data
dictionary is behaviourally the same as running the loops on all-absent
fields, so it is not modelled separately. -/
def analyzeResume (rd : ResumeData) : ResumeAnalysis :=
  let st := processSkills (rd.skills.getD [])
  let langs := (rd.languages.getD []).foldl
    (fun s l => insert (trimStr (lowerStr l)) s) (∅ : Finset String)
  let education := rd.education.getD []
  let experience := rd.professional_experience.getD []
  let totalMonths : ℕ := (experience.map (fun e => durationMonths (e.duration.getD ""))).sum
  let years : ℚ := (totalMonths : ℚ) / 12
  { skills := st.skills,
    experience_level := if 3 ≤ years then ExpLevel.mid_level else ExpLevel.entry_level,
    years_experience := years,
    education_level :=
      if education.isEmpty then EduLevel.noDegreeInfo else analyzeEducation education,
    has_degree := !education.isEmpty,
    relevant_projects := (rd.projects.getD []).length,
    programming_languages := st.programming_languages,
    technical_categories := st.technical_categories,
    certifications_count := (rd.certifications.getD []).length,
    languages := langs }

/-! ### Compatibility scoring (calculate_compatibility_score) -/

/-- The job_requirements dictionary fields read by the scorer (produced by
extract_job_requirements; remaining informational fields are not read by the
scoring functions). -/
structure JobRequirements where
  required_skills : Finset String
  preferred_skills : Finset String
  technical_categories : Finset String
  experience_level : ExpLevel
  min_years_experience : ℕ
  education_required : Bool
  degree_level : EduLevel

/-- The numeric fields of the scores dictionary (the detailed_breakdown
entry regroups the same three scores with informational lists and is not
modelled). -/
structure CompatibilityScores where
  technical_skills_score : ℚ
  experience_level_score : ℚ
  education_score : ℚ
  overall_compatibility : ℚ

/-- _calculate_technical_score. -/
def calcTechnicalScore (resume : ResumeAnalysis) (job : JobRequirements) : ℚ :=
  if job.required_skills = ∅ ∧ job.preferred_skills = ∅ then 85
  else
    let requiredMatch := (resume.skills ∩ job.required_skills).card
    let requiredTotal := job.required_skills.card
    let preferredMatch := (resume.skills ∩ job.preferred_skills).card
    let preferredTotal := job.preferred_skills.card
    let requiredScore : ℚ :=
      if 0 < requiredTotal then ((requiredMatch : ℚ) / requiredTotal) * 100 else 100
    let preferredScore : ℚ :=
      if 0 < preferredTotal then ((preferredMatch : ℚ) / preferredTotal) * 100 else 100
    let base := requiredScore * (7/10) + preferredScore * (3/10)
    let withBonus :=
      if resume.programming_languages ≠ ∅ ∧ job.technical_categories ≠ ∅ ∧
         "programming_languages" ∈ job.technical_categories then
        min 100 (base + 10)
      else base
    round1 withBonus

/-- The ordinal map experience_levels of _calculate_experience_score; the
dict lookup defaults to 0 for a level outside the table, which cannot occur
with the enum model. -/
def expOrd : ExpLevel → ℤ
  | ExpLevel.entry_level => 0
  | ExpLevel.mid_level => 1
  | ExpLevel.senior_level => 2

/-- _calculate_experience_score. -/
def calcExperienceScore (resume : ResumeAnalysis) (job : JobRequirements) : ℚ :=
  let rl := expOrd resume.experience_level
  let jl := expOrd job.experience_level
  if rl = jl then 100
  else if jl < rl then
    (if job.experience_level = ExpLevel.entry_level then 85 else 95)
  else if jl - rl = 1 then 70 else 40

/-- The ordinal map education_levels applied to the resume level; the dict
lookup defaults to 0, which is what the level none receives. -/
def resumeEduOrd : EduLevel → ℤ
  | EduLevel.noDegreeInfo => 0
  | EduLevel.high_school => 0
  | EduLevel.bachelor => 1
  | EduLevel.master => 2
  | EduLevel.phd => 3

/-- The ordinal map applied to the job's degree level; the dict lookup
defaults to 1 for levels outside the table. -/
def jobEduOrd : EduLevel → ℤ
  | EduLevel.noDegreeInfo => 1
  | EduLevel.high_school => 0
  | EduLevel.bachelor => 1
  | EduLevel.master => 2
  | EduLevel.phd => 3

/-- _calculate_education_score. -/
def calcEducationScore (resume : ResumeAnalysis) (job : JobRequirements) : ℚ :=
  if !job.education_required then 95
  else if !resume.has_degree then 30
  else
    let rl := resumeEduOrd resume.education_level
    let ql := jobEduOrd job.degree_level
    if ql ≤ rl then 100
    else if rl = ql - 1 then 80
    else 60

/-- calculate_compatibility_score: the three component scores and the
weighted overall value (the overall sum is returned as computed, with no
rounding applied). -/
def calculateCompatibilityScore (resume : ResumeAnalysis) (job : JobRequirements) :
    CompatibilityScores :=
  let t := calcTechnicalScore resume job
  let e := calcExperienceScore resume job
  let ed := calcEducationScore resume job
  { technical_skills_score := t,
    experience_level_score := e,
    education_score := ed,
    overall_compatibility := t * (40/100) + e * (35/100) + ed * (25/100) }

/-! ### Acceptance probability (calculate_acceptance_probability) -/

/-- competition_level values; unknownLevel stands for any string outside the
multiplier table, which the dict.get lookup maps to the multiplier 1.0. -/
inductive CompetitionLevel where
  | low
  | medium
  | high
  | unknownLevel
deriving DecidableEq, Repr

/-- application_timing values; unknownTiming stands for any string outside
the multiplier table. -/
inductive TimingLevel where
  | early
  | normal
  | late
  | unknownTiming
deriving DecidableEq, Repr

def competitionMultiplier : CompetitionLevel → ℚ
  | CompetitionLevel.low => 12/10
  | CompetitionLevel.medium => 1
  | CompetitionLevel.high => 8/10
  | CompetitionLevel.unknownLevel => 1

def timingMultiplier : TimingLevel → ℚ
  | TimingLevel.early => 115/100
  | TimingLevel.normal => 1
  | TimingLevel.late => 9/10
  | TimingLevel.unknownTiming => 1

/-- raw_probability: base * 0.70 * competition * timing. -/
def rawProbability (base : ℚ) (c : CompetitionLevel) (t : TimingLevel) : ℚ :=
  base * (70/100) * competitionMultiplier c * timingMultiplier t

/-- The realism-dampening step. -/
def dampen (raw : ℚ) : ℚ :=
  if 90 ≤ raw then min 85 raw
  else if 80 ≤ raw then raw * (95/100)
  else if 70 ≤ raw then raw * (90/100)
  else raw * (85/100)

/-- _calculate_confidence: base 15, minus 3 for overall at least 80, plus 5
for overall at most 40 (elif), clamped to the band 5..25 and rounded. -/
def calcConfidence (overall : ℚ) : ℚ :=
  let c : ℚ := if 80 ≤ overall then 15 - 3 else if overall ≤ 40 then 15 + 5 else 15
  round1 (max 5 (min 25 c))

/-- The numeric fields of the dictionary returned by
calculate_acceptance_probability (the textual formula_breakdown and the
improvement suggestions are informational strings and are not modelled). -/
structure AcceptanceEstimate where
  acceptance_probability : ℚ
  confidence_level : ℚ
  range_low : ℚ
  range_high : ℚ

/-- calculate_acceptance_probability on the scores dictionary and the two
market factors. -/
def calcAcceptanceProbability (scores : CompatibilityScores)
    (c : CompetitionLevel) (t : TimingLevel) : AcceptanceEstimate :=
  let raw := rawProbability scores.overall_compatibility c t
  let final := dampen raw
  let conf := calcConfidence scores.overall_compatibility
  { acceptance_probability := round1 final,
    confidence_level := conf,
    range_low := max 0 (round1 (final - conf)),
    range_high := min 100 (round1 (final + conf)) }

/-! ### Internship store (supabase_db.py: check_internship_exists,
add_internship). The remote table is modelled as the list of rows belonging
to it; network and backend failures are outside the model. -/

/-- The fields of job_data read by the duplicate check; dict.get with an
empty-string default makes an absent field the empty string. -/
structure JobData where
  application_link : String := ""
  job_title : String := ""
  company_name : String := ""
deriving DecidableEq, Repr

/-- A stored internship row (the columns the duplicate check queries, plus
the user_id column written by add_internship). -/
structure InternshipRow where
  user_id : String
  application_link : String
  job_title : String
  company_name : String
deriving DecidableEq, Repr

/-- The reason field of a positive duplicate check. -/
inductive DupReason where
  | application_link
  | job_company_match
deriving DecidableEq, Repr

/-- check_internship_exists: the primary check on the application link runs
only for a truthy (non-empty) link; the secondary check on the
(job_title, company_name) pair runs only when both are truthy. -/
def checkInternshipExists (table : List InternshipRow) (uid : String)
    (jd : JobData) : Option DupReason :=
  if jd.application_link ≠ "" ∧
     table.any (fun r => r.user_id = uid ∧ r.application_link = jd.application_link) then
    some DupReason.application_link
  else if jd.job_title ≠ "" ∧ jd.company_name ≠ "" ∧
     table.any (fun r => r.user_id = uid ∧ r.job_title = jd.job_title ∧
       r.company_name = jd.company_name) then
    some DupReason.job_company_match
  else
    Option.none

/-- Result of add_internship. -/
inductive AddResult where
  | success
  | duplicate (reason : DupReason)
deriving DecidableEq, Repr

/-- add_internship: a positive duplicate check returns the duplicate error
and leaves the table unchanged; otherwise the row is inserted with the
user_id attached (the insert succeeding, since backend failures are outside
the model). -/
def addInternship (table : List InternshipRow) (uid : String) (jd : JobData) :
    AddResult × List InternshipRow :=
  match checkInternshipExists table uid jd with
  | some r => (AddResult.duplicate r, table)
  | Option.none =>
    (AddResult.success,
     table ++ [{ user_id := uid, application_link := jd.application_link,
                 job_title := jd.job_title, company_name := jd.company_name }])

/-! ### Shared lemmas and concrete values -/

/-- A resume analysis with no detected content (the initial analysis
dictionary). -/
def emptyProfile : ResumeAnalysis :=
  { skills := ∅, experience_level := ExpLevel.entry_level, years_experience := 0,
    education_level := EduLevel.noDegreeInfo, has_degree := false, relevant_projects := 0,
    programming_languages := ∅, technical_categories := ∅, certifications_count := 0,
    languages := ∅ }

/-- A job profile with no listed skills, entry level, no education
requirement. -/
def noSkillJob : JobRequirements :=
  { required_skills := ∅, preferred_skills := ∅, technical_categories := ∅,
    experience_level := ExpLevel.entry_level, min_years_experience := 0,
    education_required := false, degree_level := EduLevel.bachelor }

/-- A senior-level job profile with no listed skills. -/
def seniorNoSkillJob : JobRequirements :=
  { required_skills := ∅, preferred_skills := ∅, technical_categories := ∅,
    experience_level := ExpLevel.senior_level, min_years_experience := 0,
    education_required := false, degree_level := EduLevel.bachelor }

theorem accProb_value (s : CompatibilityScores) (c : CompetitionLevel) (t : TimingLevel) :
    (calcAcceptanceProbability s c t).acceptance_probability =
      round1 (dampen (rawProbability s.overall_compatibility c t)) := rfl

theorem accProb_range_low (s : CompatibilityScores) (c : CompetitionLevel) (t : TimingLevel) :
    (calcAcceptanceProbability s c t).range_low =
      max 0 (round1 (dampen (rawProbability s.overall_compatibility c t) -
        calcConfidence s.overall_compatibility)) := rfl

theorem accProb_range_high (s : CompatibilityScores) (c : CompetitionLevel) (t : TimingLevel) :
    (calcAcceptanceProbability s c t).range_high =
      min 100 (round1 (dampen (rawProbability s.overall_compatibility c t) +
        calcConfidence s.overall_compatibility)) := rfl

/-- Dampening is monotone as long as the smaller raw value stays at or
below 85 (the non-monotone window sits strictly above 85/0.95). -/
theorem dampen_mono_of_le85 {a b : ℚ} (hab : a ≤ b) (ha : a ≤ 85) :
    dampen a ≤ dampen b := by
  unfold dampen
  split_ifs <;>
    first
      | linarith
      | (rw [le_min_iff]; constructor <;> linarith)

theorem round1_dampen_mono {a b : ℚ} (hab : a ≤ b) (ha : a ≤ 85) :
    round1 (dampen a) ≤ round1 (dampen b) :=
  round1_mono (dampen_mono_of_le85 hab ha)

/-- The raw probabilities reachable from a compatibility value between 0
and 100 under the competition and timing multipliers. -/
def ReachableRaw (r : ℚ) : Prop :=
  ∃ b c t, 0 ≤ b ∧ b ≤ 100 ∧ r = rawProbability b c t

theorem competitionMultiplier_bounds (c : CompetitionLevel) :
    0 < competitionMultiplier c ∧ competitionMultiplier c ≤ 12/10 := by
  cases c <;> constructor <;> norm_num [competitionMultiplier]

theorem timingMultiplier_bounds (t : TimingLevel) :
    0 < timingMultiplier t ∧ timingMultiplier t ≤ 115/100 := by
  cases t <;> constructor <;> norm_num [timingMultiplier]

theorem rawProbability_bounds {b : ℚ} (h0 : 0 ≤ b) (h1 : b ≤ 100)
    (c : CompetitionLevel) (t : TimingLevel) :
    0 ≤ rawProbability b c t ∧ rawProbability b c t ≤ 966/10 := by
  cases c <;> cases t <;>
    (unfold rawProbability competitionMultiplier timingMultiplier;
     constructor <;> linarith)

theorem dampen_bounds {r : ℚ} (h0 : 0 ≤ r) (h1 : r ≤ 966/10) :
    0 ≤ dampen r ∧ dampen r ≤ 855/10 := by
  unfold dampen
  split_ifs <;> constructor <;>
    first
      | linarith
      | (rw [le_min_iff]; constructor <;> linarith)
      | (refine le_trans (min_le_left _ _) ?_; linarith)

theorem calcConfidence_nonneg (q : ℚ) : 0 ≤ calcConfidence q := by
  unfold calcConfidence
  apply round1_nonneg
  have := le_max_left (5 : ℚ) (min 25 (if 80 ≤ q then 15 - 3 else if q ≤ 40 then 15 + 5 else 15))
  linarith

theorem round1_shape (q : ℚ) : ∃ z : ℤ, round1 q = (z : ℚ) / 10 :=
  ⟨rhe (10 * q), rfl⟩

theorem score_fraction_eq (s r : Finset String) :
    (if 0 < r.card then (((s ∩ r).card : ℚ) / (r.card : ℚ)) * 100 else 100) =
    (if r = ∅ then 100 else 100 * ((s ∩ r).card : ℚ) / (r.card : ℚ)) := by
  by_cases hr : r = ∅
  · simp [hr]
  · have h1 : 0 < r.card := Finset.card_pos.mpr (Finset.nonempty_iff_ne_empty.mpr hr)
    rw [if_pos h1, if_neg hr]
    ring

/-- C1 (counterexample): at the empty resume profile against a job with no
skill lists and no education requirement the returned overall_compatibility
is 92.75, which is not equal to its own one-decimal rounding; the overall
value is therefore not rounded to 1 decimal place as the claim states. -/
theorem overall_compatibility_not_rounded :
    (calculateCompatibilityScore emptyProfile noSkillJob).overall_compatibility ≠
      round1 ((calculateCompatibilityScore emptyProfile noSkillJob).overall_compatibility) := by
  have ht : calcTechnicalScore emptyProfile noSkillJob = 85 := by
    unfold calcTechnicalScore
    rw [if_pos ⟨rfl, rfl⟩]
  have he : calcExperienceScore emptyProfile noSkillJob = 100 := by
    simp [calcExperienceScore, emptyProfile, noSkillJob, expOrd]
  have hed : calcEducationScore emptyProfile noSkillJob = 95 := by
    simp [calcEducationScore, noSkillJob]
  have hov : (calculateCompatibilityScore emptyProfile noSkillJob).overall_compatibility
      = 371/4 := by
    show calcTechnicalScore emptyProfile noSkillJob * (40/100) +
      calcExperienceScore emptyProfile noSkillJob * (35/100) +
      calcEducationScore emptyProfile noSkillJob * (25/100) = 371/4
    rw [ht, he, hed]
    norm_num
  have hfloor : ⌊(1855/2 : ℚ)⌋ = 927 := by
    rw [Int.floor_eq_iff]
    constructor <;> norm_num
  have hrhe : rhe (1855/2 : ℚ) = 928 := by
    unfold rhe
    rw [hfloor]
    norm_num
  have hr : round1 (371/4 : ℚ) = 464/5 := by
    unfold round1
    have h10 : (10 : ℚ) * (371/4) = 1855/2 := by norm_num
    rw [h10, hrhe]
    norm_num
  rw [hov, hr]
  norm_num

/-- C1 (amended): overall_compatibility equals the exact weighted sum
0.40*technical + 0.35*experience + 0.25*education of the returned component
scores, and each component score is a one-decimal value; the overall sum
itself is returned without rounding. -/
theorem overall_compatibility_formula (resume : ResumeAnalysis) (job : JobRequirements) :
    (calculateCompatibilityScore resume job).overall_compatibility =
      (calculateCompatibilityScore resume job).technical_skills_score * (40/100) +
      (calculateCompatibilityScore resume job).experience_level_score * (35/100) +
      (calculateCompatibilityScore resume job).education_score * (25/100) ∧
    (∃ z : ℤ, (calculateCompatibilityScore resume job).technical_skills_score = (z : ℚ) / 10) ∧
    (∃ z : ℤ, (calculateCompatibilityScore resume job).experience_level_score = (z : ℚ) / 10) ∧
    (∃ z : ℤ, (calculateCompatibilityScore resume job).education_score = (z : ℚ) / 10) := by
  refine ⟨rfl, ?_, ?_, ?_⟩
  · show ∃ z : ℤ, calcTechnicalScore resume job = (z : ℚ) / 10
    simp only [calcTechnicalScore]
    split_ifs
    all_goals first | exact round1_shape _ | exact ⟨850, by norm_num⟩
  · show ∃ z : ℤ, calcExperienceScore resume job = (z : ℚ) / 10
    simp only [calcExperienceScore]
    split_ifs
    · exact ⟨1000, by norm_num⟩
    · exact ⟨850, by norm_num⟩
    · exact ⟨950, by norm_num⟩
    · exact ⟨700, by norm_num⟩
    · exact ⟨400, by norm_num⟩
  · show ∃ z : ℤ, calcEducationScore resume job = (z : ℚ) / 10
    simp only [calcEducationScore]
    split_ifs
    · exact ⟨950, by norm_num⟩
    · exact ⟨300, by norm_num⟩
    · exact ⟨1000, by norm_num⟩
    · exact ⟨800, by norm_num⟩
    · exact ⟨600, by norm_num⟩

/-- C2: the technical score is 85 whenever the job lists no required and no
preferred skills, regardless of the resume; otherwise it is
0.7*required_score + 0.3*preferred_score rounded to 1 decimal, with
required_score = 100*|skills ∩ required|/|required| (100 on an empty
required set), preferred_score symmetric, and a +10 bonus capped at 100
when the resume has a programming language and the job's technical
categories include programming_languages. -/
theorem technical_score_spec (resume : ResumeAnalysis) (job : JobRequirements) :
    (job.required_skills = ∅ → job.preferred_skills = ∅ →
      calcTechnicalScore resume job = 85) ∧
    (¬(job.required_skills = ∅ ∧ job.preferred_skills = ∅) →
      calcTechnicalScore resume job = round1 (
        let requiredScore : ℚ :=
          if job.required_skills = ∅ then 100
          else 100 * ((resume.skills ∩ job.required_skills).card : ℚ) /
            (job.required_skills.card : ℚ)
        let preferredScore : ℚ :=
          if job.preferred_skills = ∅ then 100
          else 100 * ((resume.skills ∩ job.preferred_skills).card : ℚ) /
            (job.preferred_skills.card : ℚ)
        let base := (7/10) * requiredScore + (3/10) * preferredScore
        if resume.programming_languages ≠ ∅ ∧
           "programming_languages" ∈ job.technical_categories then
          min 100 (base + 10)
        else base)) := by
  have hcond : (resume.programming_languages ≠ ∅ ∧ job.technical_categories ≠ ∅ ∧
      "programming_languages" ∈ job.technical_categories) ↔
      (resume.programming_languages ≠ ∅ ∧
        "programming_languages" ∈ job.technical_categories) :=
    ⟨fun x => ⟨x.1, x.2.2⟩, fun x => ⟨x.1, Finset.ne_empty_of_mem x.2, x.2⟩⟩
  constructor
  · intro h1 h2
    unfold calcTechnicalScore
    rw [if_pos ⟨h1, h2⟩]
  · intro h
    unfold calcTechnicalScore
    rw [if_neg h]
    simp only [score_fraction_eq, hcond]
    ring_nf

/-- C3: the experience score follows the ordinal map entry=0, mid=1,
senior=2: equal ordinals give 100; an overqualified resume gives 85 against
an entry-level job and 95 otherwise; an underqualified resume gives 70 at a
gap of one level and 40 at a gap of two, so the penalty ordering
40 < 70 < 100 holds and an entry-level resume against a senior-level job
scores 40. -/
theorem experience_score_cases (resume : ResumeAnalysis) (job : JobRequirements) :
    (expOrd resume.experience_level = expOrd job.experience_level →
      calcExperienceScore resume job = 100) ∧
    (expOrd job.experience_level < expOrd resume.experience_level →
      (job.experience_level = ExpLevel.entry_level →
        calcExperienceScore resume job = 85) ∧
      (job.experience_level ≠ ExpLevel.entry_level →
        calcExperienceScore resume job = 95)) ∧
    (expOrd job.experience_level - expOrd resume.experience_level = 1 →
      calcExperienceScore resume job = 70) ∧
    (expOrd job.experience_level - expOrd resume.experience_level = 2 →
      calcExperienceScore resume job = 40) ∧
    (resume.experience_level = ExpLevel.entry_level →
      job.experience_level = ExpLevel.senior_level →
      calcExperienceScore resume job = 40) := by
  cases hr : resume.experience_level <;> cases hj : job.experience_level <;>
    simp [calcExperienceScore, expOrd, hr, hj]

/-- Witness for C3 at the entry-level profile against a senior-level job. -/
theorem experience_score_cases_witness :
    calcExperienceScore emptyProfile seniorNoSkillJob = 40 :=
  (experience_score_cases emptyProfile seniorNoSkillJob).2.2.2.2 rfl rfl

/-- Witness for C2 at the empty profile against a job with no skill lists. -/
theorem technical_score_spec_witness :
    calcTechnicalScore emptyProfile noSkillJob = 85 :=
  (technical_score_spec emptyProfile noSkillJob).1 rfl rfl

/-- A resume whose first education entry is a master's degree and whose
second is a bachelor's degree. -/
def masterThenBachelorResume : ResumeData :=
  { education := some [{ degree := some "Master of Science" },
                       { degree := some "Bachelor of Arts" }] }

/-- C4 (evaluation at the failing input): with a master's entry followed by
a bachelor's entry the returned education_level is bachelor, although the
master's entry alone yields master: the later entry overwrites the tracked
highest_degree downwards, contradicting the highest-level-seen claim. -/
theorem education_level_downgrade :
    (analyzeResume masterThenBachelorResume).education_level = EduLevel.bachelor ∧
    (analyzeResume
      { education := some [{ degree := some "Master of Science" }] }).education_level
      = EduLevel.master := by
  constructor <;> rfl

/-- C5: at a fixed compatibility score in the range 0..100, moving the
competition level from low to medium to high never increases the
acceptance probability, and moving the application timing from late to
normal to early never decreases it. -/
theorem acceptance_probability_monotone (s : CompatibilityScores)
    (c : CompetitionLevel) (t : TimingLevel)
    (h0 : 0 ≤ s.overall_compatibility) (h1 : s.overall_compatibility ≤ 100) :
    (calcAcceptanceProbability s CompetitionLevel.high t).acceptance_probability ≤
      (calcAcceptanceProbability s CompetitionLevel.medium t).acceptance_probability ∧
    (calcAcceptanceProbability s CompetitionLevel.medium t).acceptance_probability ≤
      (calcAcceptanceProbability s CompetitionLevel.low t).acceptance_probability ∧
    (calcAcceptanceProbability s c TimingLevel.late).acceptance_probability ≤
      (calcAcceptanceProbability s c TimingLevel.normal).acceptance_probability ∧
    (calcAcceptanceProbability s c TimingLevel.normal).acceptance_probability ≤
      (calcAcceptanceProbability s c TimingLevel.early).acceptance_probability := by
  refine ⟨?_, ?_, ?_, ?_⟩ <;> rw [accProb_value, accProb_value]
  · apply round1_dampen_mono <;>
      (cases t <;>
        (simp only [rawProbability, competitionMultiplier, timingMultiplier]; linarith))
  · apply round1_dampen_mono <;>
      (cases t <;>
        (simp only [rawProbability, competitionMultiplier, timingMultiplier]; linarith))
  · apply round1_dampen_mono <;>
      (cases c <;>
        (simp only [rawProbability, competitionMultiplier, timingMultiplier]; linarith))
  · apply round1_dampen_mono <;>
      (cases c <;>
        (simp only [rawProbability, competitionMultiplier, timingMultiplier]; linarith))

/-- A fixed mid-range compatibility score dictionary. -/
def midScores : CompatibilityScores :=
  { technical_skills_score := 50, experience_level_score := 50,
    education_score := 50, overall_compatibility := 50 }

/-- Witness for C5 at a compatibility of 50. -/
theorem acceptance_probability_monotone_witness :
    (0 : ℚ) ≤ midScores.overall_compatibility ∧
    midScores.overall_compatibility ≤ 100 ∧
    (calcAcceptanceProbability midScores CompetitionLevel.high
        TimingLevel.normal).acceptance_probability ≤
      (calcAcceptanceProbability midScores CompetitionLevel.medium
        TimingLevel.normal).acceptance_probability := by
  refine ⟨by norm_num [midScores], by norm_num [midScores], ?_⟩
  exact (acceptance_probability_monotone midScores CompetitionLevel.medium
    TimingLevel.normal (by norm_num [midScores]) (by norm_num [midScores])).1

/-- C6 (counterexample): both 89.6 and 96.6 are reachable raw probabilities
(from compatibilities of about 92.75 and 100 under low competition and
early timing), yet dampening sends 89.6 to 85.12 and the larger 96.6 to 85:
the dampening step is not monotone over the reachable raw values. -/
theorem dampen_not_monotone :
    ReachableRaw (448/5) ∧ ReachableRaw (483/5) ∧ (448/5 : ℚ) ≤ 483/5 ∧
    dampen (483/5) < dampen (448/5) := by
  refine ⟨⟨44800/483, CompetitionLevel.low, TimingLevel.early,
            by norm_num, by norm_num, ?_⟩,
          ⟨100, CompetitionLevel.low, TimingLevel.early,
            by norm_num, by norm_num, ?_⟩,
          by norm_num, ?_⟩
  · norm_num [rawProbability, competitionMultiplier, timingMultiplier]
  · norm_num [rawProbability, competitionMultiplier, timingMultiplier]
  · have h1 : dampen (483/5) = 85 := by
      unfold dampen
      rw [if_pos (by norm_num : (90:ℚ) ≤ 483/5)]
      rw [min_eq_left (by norm_num : (85:ℚ) ≤ 483/5)]
    have h2 : dampen (448/5) = 2128/25 := by
      unfold dampen
      rw [if_neg (by norm_num : ¬(90:ℚ) ≤ 448/5),
          if_pos (by norm_num : (80:ℚ) ≤ 448/5)]
      norm_num
    rw [h1, h2]
    norm_num

/-- C6 (amended): dampening is monotone on every pair of reachable raw
values except across the cap boundary: for reachable r1 ≤ r2 the dampened
value at r1 is at most the one at r2 whenever r1 ≤ 85/0.95 = 1700/19, or
both lie in the capped region (90 ≤ r1), or neither does (r2 < 90);
monotonicity genuinely fails only for 1700/19 < r1 < 90 ≤ r2. -/
theorem dampen_monotone_away_from_cap {r1 r2 : ℚ}
    (_h1 : ReachableRaw r1) (_h2 : ReachableRaw r2) (h12 : r1 ≤ r2)
    (hside : r1 ≤ 1700/19 ∨ 90 ≤ r1 ∨ r2 < 90) :
    dampen r1 ≤ dampen r2 := by
  rcases hside with hs | hs | hs
  · unfold dampen
    split_ifs <;>
      first
        | linarith
        | (rw [le_min_iff]; constructor <;> linarith)
  · have h90 : (90 : ℚ) ≤ r2 := le_trans hs h12
    unfold dampen
    rw [if_pos hs, if_pos h90,
        min_eq_left (by linarith : (85:ℚ) ≤ r1),
        min_eq_left (by linarith : (85:ℚ) ≤ r2)]
  · unfold dampen
    split_ifs <;> linarith

/-- Witness for the amended C6 on the reachable pair 50 and 60. -/
theorem dampen_monotone_away_from_cap_witness :
    ReachableRaw 50 ∧ ReachableRaw 60 ∧ (50 : ℚ) ≤ 60 ∧
    (50 : ℚ) ≤ 1700/19 ∧ dampen 50 ≤ dampen 60 := by
  have hr1 : ReachableRaw 50 :=
    ⟨500/7, CompetitionLevel.medium, TimingLevel.normal, by norm_num, by norm_num,
     by norm_num [rawProbability, competitionMultiplier, timingMultiplier]⟩
  have hr2 : ReachableRaw 60 :=
    ⟨600/7, CompetitionLevel.medium, TimingLevel.normal, by norm_num, by norm_num,
     by norm_num [rawProbability, competitionMultiplier, timingMultiplier]⟩
  exact ⟨hr1, hr2, by norm_num, by norm_num,
    dampen_monotone_away_from_cap hr1 hr2 (by norm_num) (Or.inl (by norm_num))⟩

/-- C7: for a compatibility in the range 0..100 and every competition and
timing context, the acceptance probability lies in 0..100 and sits inside
the probability range, whose low end is at least 0 and whose high end is at
most 100. -/
theorem acceptance_estimate_bounds (s : CompatibilityScores)
    (c : CompetitionLevel) (t : TimingLevel)
    (h0 : 0 ≤ s.overall_compatibility) (h1 : s.overall_compatibility ≤ 100) :
    0 ≤ (calcAcceptanceProbability s c t).acceptance_probability ∧
    (calcAcceptanceProbability s c t).acceptance_probability ≤ 100 ∧
    (calcAcceptanceProbability s c t).range_low ≤
      (calcAcceptanceProbability s c t).acceptance_probability ∧
    (calcAcceptanceProbability s c t).acceptance_probability ≤
      (calcAcceptanceProbability s c t).range_high ∧
    0 ≤ (calcAcceptanceProbability s c t).range_low ∧
    (calcAcceptanceProbability s c t).range_high ≤ 100 := by
  obtain ⟨hr0, hr1⟩ := rawProbability_bounds h0 h1 c t
  obtain ⟨hd0, hd1⟩ := dampen_bounds hr0 hr1
  have hconf := calcConfidence_nonneg s.overall_compatibility
  rw [accProb_value, accProb_range_low, accProb_range_high]
  have hacc0 : 0 ≤ round1 (dampen (rawProbability s.overall_compatibility c t)) :=
    round1_nonneg hd0
  have hacc1 : round1 (dampen (rawProbability s.overall_compatibility c t)) ≤ 100 := by
    have := round1_le_add (dampen (rawProbability s.overall_compatibility c t))
    linarith
  refine ⟨hacc0, hacc1, ?_, ?_, le_max_left _ _, min_le_left _ _⟩
  · exact max_le hacc0 (round1_mono (by linarith))
  · exact le_min hacc1 (round1_mono (by linarith))

/-- Witness for C7 at a compatibility of 50 under medium competition and
normal timing. -/
theorem acceptance_estimate_bounds_witness :
    (0 : ℚ) ≤ midScores.overall_compatibility ∧
    midScores.overall_compatibility ≤ 100 ∧
    0 ≤ (calcAcceptanceProbability midScores CompetitionLevel.medium
      TimingLevel.normal).acceptance_probability := by
  refine ⟨by norm_num [midScores], by norm_num [midScores], ?_⟩
  exact (acceptance_estimate_bounds midScores CompetitionLevel.medium
    TimingLevel.normal (by norm_num [midScores]) (by norm_num [midScores])).1

/-- A resume record whose optional fields are all absent, null, or empty. -/
def allOptionalEmpty (rd : ResumeData) : Prop :=
  (rd.skills = Option.none ∨ rd.skills = some []) ∧
  (rd.languages = Option.none ∨ rd.languages = some []) ∧
  (rd.education = Option.none ∨ rd.education = some []) ∧
  (rd.professional_experience = Option.none ∨ rd.professional_experience = some []) ∧
  (rd.projects = Option.none ∨ rd.projects = some []) ∧
  (rd.certifications = Option.none ∨ rd.certifications = some [])

/-- The empty resume record (the Python empty dictionary). -/
def emptyResumeData : ResumeData := {}

/-- C8: analyze_resume is total on resume records with absent, null or
empty optional fields and returns the all-default profile on them; in
particular the empty record yields empty sets, zero years, entry_level,
education_level none, has_degree false and zero counts. -/
theorem analyze_resume_empty_defaults (rd : ResumeData) (h : allOptionalEmpty rd) :
    analyzeResume rd = emptyProfile ∧ analyzeResume emptyResumeData = emptyProfile := by
  have g : ∀ rd' : ResumeData, allOptionalEmpty rd' → analyzeResume rd' = emptyProfile := by
    intro rd' h'
    obtain ⟨h1, h2, h3, h4, h5, h6⟩ := h'
    have e1 : rd'.skills.getD [] = [] := by rcases h1 with h|h <;> simp [h]
    have e2 : rd'.languages.getD [] = [] := by rcases h2 with h|h <;> simp [h]
    have e3 : rd'.education.getD [] = [] := by rcases h3 with h|h <;> simp [h]
    have e4 : rd'.professional_experience.getD [] = [] := by
      rcases h4 with h|h <;> simp [h]
    have e5 : rd'.projects.getD [] = [] := by rcases h5 with h|h <;> simp [h]
    have e6 : rd'.certifications.getD [] = [] := by rcases h6 with h|h <;> simp [h]
    unfold analyzeResume
    rw [e1, e2, e3, e4, e5, e6]
    simp [processSkills, emptyProfile]
  exact ⟨g rd h, g emptyResumeData
    ⟨Or.inl rfl, Or.inl rfl, Or.inl rfl, Or.inl rfl, Or.inl rfl, Or.inl rfl⟩⟩

/-- Witness for C8 at the empty resume record. -/
theorem analyze_resume_empty_defaults_witness :
    allOptionalEmpty emptyResumeData ∧ analyzeResume emptyResumeData = emptyProfile := by
  have h : allOptionalEmpty emptyResumeData :=
    ⟨Or.inl rfl, Or.inl rfl, Or.inl rfl, Or.inl rfl, Or.inl rfl, Or.inl rfl⟩
  exact ⟨h, (analyze_resume_empty_defaults emptyResumeData h).1⟩

/-- The row written by add_internship: the job_data fields with the user_id
attached. -/
def mkRow (uid : String) (jd : JobData) : InternshipRow :=
  { user_id := uid, application_link := jd.application_link,
    job_title := jd.job_title, company_name := jd.company_name }

theorem addInternship_of_dup {table : List InternshipRow} {uid : String}
    {jd : JobData} {r : DupReason}
    (h : checkInternshipExists table uid jd = some r) :
    addInternship table uid jd = (AddResult.duplicate r, table) := by
  unfold addInternship
  rw [h]

theorem addInternship_of_fresh {table : List InternshipRow} {uid : String}
    {jd : JobData} (h : checkInternshipExists table uid jd = Option.none) :
    addInternship table uid jd = (AddResult.success, table ++ [mkRow uid jd]) := by
  unfold addInternship
  rw [h]
  rfl

/-- C9: for a fresh posting with a non-empty application link, the first
add_internship call succeeds and appends exactly one row; a second call
with the same link for the same user reports the duplicate and leaves the
store unchanged, and so does any call whose non-empty (job_title,
company_name) pair matches the stored row. -/
theorem add_internship_duplicates (table : List InternshipRow) (uid : String)
    (jd : JobData) (hlink : jd.application_link ≠ "")
    (hfresh : checkInternshipExists table uid jd = Option.none) :
    (addInternship table uid jd).1 = AddResult.success ∧
    (addInternship table uid jd).2.length = table.length + 1 ∧
    (addInternship (addInternship table uid jd).2 uid jd).1 =
      AddResult.duplicate DupReason.application_link ∧
    (addInternship (addInternship table uid jd).2 uid jd).2 =
      (addInternship table uid jd).2 ∧
    (∀ jd2 : JobData, jd2.job_title = jd.job_title →
      jd2.company_name = jd.company_name →
      jd2.job_title ≠ "" → jd2.company_name ≠ "" →
      (∃ reason, (addInternship (addInternship table uid jd).2 uid jd2).1 =
        AddResult.duplicate reason) ∧
      (addInternship (addInternship table uid jd).2 uid jd2).2 =
        (addInternship table uid jd).2) := by
  have hstep := addInternship_of_fresh hfresh
  have hany1 : (table ++ [mkRow uid jd]).any
      (fun r => r.user_id = uid ∧ r.application_link = jd.application_link) = true := by
    rw [List.any_append]
    simp [mkRow]
  have hcheck2 : checkInternshipExists (addInternship table uid jd).2 uid jd =
      some DupReason.application_link := by
    rw [hstep]
    unfold checkInternshipExists
    rw [if_pos ⟨hlink, hany1⟩]
  refine ⟨by rw [hstep], by rw [hstep]; simp, ?_, ?_, ?_⟩
  · rw [addInternship_of_dup hcheck2]
  · rw [addInternship_of_dup hcheck2]
  · intro jd2 ht hc ht2 hc2
    have hany2 : ((addInternship table uid jd).2).any
        (fun r => r.user_id = uid ∧ r.job_title = jd2.job_title ∧
          r.company_name = jd2.company_name) = true := by
      rw [hstep, List.any_append]
      simp [mkRow, ht, hc]
    have hex : ∃ reason, checkInternshipExists (addInternship table uid jd).2 uid jd2 =
        some reason := by
      unfold checkInternshipExists
      by_cases hl : jd2.application_link ≠ "" ∧
          ((addInternship table uid jd).2).any
            (fun r => r.user_id = uid ∧ r.application_link = jd2.application_link) = true
      · exact ⟨DupReason.application_link, by rw [if_pos hl]⟩
      · refine ⟨DupReason.job_company_match, ?_⟩
        rw [if_neg hl, if_pos ⟨ht2, hc2, hany2⟩]
    obtain ⟨reason, hre⟩ := hex
    rw [addInternship_of_dup hre]
    exact ⟨⟨reason, rfl⟩, rfl⟩

/-- A concrete posting for the C9 witness. -/
def samplePosting : JobData :=
  { application_link := "urlx", job_title := "T", company_name := "C" }

/-- Witness for C9: an empty store, one user and a concrete posting. -/
theorem add_internship_duplicates_witness :
    samplePosting.application_link ≠ "" ∧
    checkInternshipExists [] "u" samplePosting = Option.none ∧
    (addInternship [] "u" samplePosting).1 = AddResult.success := by
  have h1 : samplePosting.application_link ≠ "" := by decide
  have h2 : checkInternshipExists [] "u" samplePosting = Option.none := by decide
  exact ⟨h1, h2, (add_internship_duplicates [] "u" samplePosting h1 h2).1⟩

theorem classifyDegree_preserved {h : EduLevel}
    (hh : h = EduLevel.bachelor ∨ h = EduLevel.master ∨ h = EduLevel.phd)
    (d : String) :
    classifyDegree h d = EduLevel.bachelor ∨ classifyDegree h d = EduLevel.master ∨
      classifyDegree h d = EduLevel.phd := by
  simp only [classifyDegree]
  split_ifs with h1 h2 h3 h4 h5 h6
  · exact Or.inl rfl
  · exact Or.inr (Or.inl rfl)
  · exact Or.inr (Or.inr rfl)
  · exact Or.inl rfl
  · rcases hh with rfl | rfl | rfl <;> simp at h6
  · exact hh
  · exact hh

theorem analyzeEducation_cases (l : List EduEntry) :
    analyzeEducation l = EduLevel.bachelor ∨ analyzeEducation l = EduLevel.master ∨
      analyzeEducation l = EduLevel.phd := by
  unfold analyzeEducation
  have g : ∀ (m : List EduEntry) (h : EduLevel),
      (h = EduLevel.bachelor ∨ h = EduLevel.master ∨ h = EduLevel.phd) →
      (m.foldl (fun a e => classifyDegree a (e.degree.getD "")) h = EduLevel.bachelor ∨
       m.foldl (fun a e => classifyDegree a (e.degree.getD "")) h = EduLevel.master ∨
       m.foldl (fun a e => classifyDegree a (e.degree.getD "")) h = EduLevel.phd) := by
    intro m
    induction m with
    | nil => intro h hh; exact hh
    | cons e rest ih =>
      intro h hh
      exact ih _ (classifyDegree_preserved hh _)
  exact g l EduLevel.bachelor (Or.inl rfl)

/-- C10: a resume with a non-empty education list always yields
has_degree true and an education level among bachelor, master, phd: the
tracker starts at bachelor and never reaches none or high_school. -/
theorem education_present_invariant (rd : ResumeData) (l : List EduEntry)
    (hl : rd.education = some l) (hne : l ≠ []) :
    (analyzeResume rd).has_degree = true ∧
    ((analyzeResume rd).education_level = EduLevel.bachelor ∨
     (analyzeResume rd).education_level = EduLevel.master ∨
     (analyzeResume rd).education_level = EduLevel.phd) := by
  have hget : rd.education.getD [] = l := by rw [hl]; rfl
  have hiE : l.isEmpty = false := by
    cases l with
    | nil => exact absurd rfl hne
    | cons a t => rfl
  constructor
  · show (!(rd.education.getD []).isEmpty) = true
    rw [hget, hiE]
    rfl
  · have heq : (analyzeResume rd).education_level = analyzeEducation l := by
      show (if (rd.education.getD []).isEmpty then EduLevel.noDegreeInfo
        else analyzeEducation (rd.education.getD [])) = analyzeEducation l
      rw [hget, hiE]
      simp
    rw [heq]
    exact analyzeEducation_cases l

/-- A resume with one education entry whose degree string matches no level
keyword. -/
def unknownDegreeResume : ResumeData :=
  { education := some [{ degree := some "zzz qualification" }] }

/-- Witness for C10 at a one-entry education list with an unrecognised
degree string. -/
theorem education_present_invariant_witness :
    (analyzeResume unknownDegreeResume).has_degree = true ∧
    ((analyzeResume unknownDegreeResume).education_level = EduLevel.bachelor ∨
     (analyzeResume unknownDegreeResume).education_level = EduLevel.master ∨
     (analyzeResume unknownDegreeResume).education_level = EduLevel.phd) :=
  education_present_invariant unknownDegreeResume
    [{ degree := some "zzz qualification" }] rfl (by simp)
